import Mathlib

/-!
Shallow embedding of the `TwoHanded` optimizer from `TwoHand.ipynb`.

The source is a single Python class with four methods:
`__init__`, `selectLeftOrRight`, `generateRandomHypothesis`, `gradientStep`
and `optimize`.  Python floats are modelled by the type `FVal`
(NaN, the two infinities, and finite values represented exactly as
rationals); Python's global random stream (`random.uniform`) is modelled
by an explicit stream of draws threaded through every call, in the order
the source consumes them.  Objective-function evaluations are counted by
threading an explicit call counter, so that evaluation-count properties
can be stated.
-/

/-- Model of a Python float value: NaN, +inf, -inf, or a finite value
(represented exactly as a rational; rounding is not modelled). -/
inductive FVal where
  | nan : FVal
  | inf : FVal
  | neginf : FVal
  | fin : ℚ → FVal
deriving DecidableEq

/-- True exactly on NaN. -/
def FVal.isNan : FVal → Bool
  | .nan => true
  | _ => false

/-- True exactly on finite values. -/
def FVal.isFinite : FVal → Bool
  | .fin _ => true
  | _ => false

/-- IEEE-style strict greater-than on float values: any comparison with
NaN is false; otherwise -inf < finite < +inf.  This is the `>` used by
Python in `if newY > currentY`. -/
def fgt : FVal → FVal → Bool
  | .nan, _ => false
  | _, .nan => false
  | .inf, .inf => false
  | .inf, .neginf => true
  | .inf, .fin _ => true
  | .neginf, _ => false
  | .fin _, .inf => false
  | .fin _, .neginf => true
  | .fin a, .fin b => decide (b < a)

/-- IEEE-style greater-or-equal on float values: any comparison with NaN
is false; otherwise the order -inf < finite < +inf, reflexively. -/
def fge : FVal → FVal → Bool
  | .nan, _ => false
  | _, .nan => false
  | .inf, _ => true
  | .neginf, .neginf => true
  | .neginf, _ => false
  | .fin _, .inf => false
  | .fin _, .neginf => true
  | .fin a, .fin b => decide (b ≤ a)

/-- Float addition with the usual IEEE special cases
(NaN propagates, inf + (-inf) = NaN). -/
def FVal.add : FVal → FVal → FVal
  | .nan, _ => .nan
  | _, .nan => .nan
  | .inf, .neginf => .nan
  | .inf, _ => .inf
  | .neginf, .inf => .nan
  | .neginf, _ => .neginf
  | .fin _, .inf => .inf
  | .fin _, .neginf => .neginf
  | .fin a, .fin b => .fin (a + b)

/-- Float subtraction with the usual IEEE special cases
(NaN propagates, inf - inf = NaN). -/
def FVal.sub : FVal → FVal → FVal
  | .nan, _ => .nan
  | _, .nan => .nan
  | .inf, .inf => .nan
  | .inf, _ => .inf
  | .neginf, .neginf => .nan
  | .neginf, _ => .neginf
  | .fin _, .inf => .neginf
  | .fin _, .neginf => .inf
  | .fin a, .fin b => .fin (a - b)

/-- Float multiplication with the usual IEEE special cases
(NaN propagates, 0 * inf = NaN, sign rules for infinities). -/
def FVal.mul : FVal → FVal → FVal
  | .nan, _ => .nan
  | _, .nan => .nan
  | .inf, .inf => .inf
  | .inf, .neginf => .neginf
  | .inf, .fin b => if 0 < b then .inf else if b < 0 then .neginf else .nan
  | .neginf, .inf => .neginf
  | .neginf, .neginf => .inf
  | .neginf, .fin b => if 0 < b then .neginf else if b < 0 then .inf else .nan
  | .fin a, .inf => if 0 < a then .inf else if a < 0 then .neginf else .nan
  | .fin a, .neginf => if 0 < a then .neginf else if a < 0 then .inf else .nan
  | .fin a, .fin b => .fin (a * b)

/-- Float division.  NaN propagates, inf/inf = NaN, finite/inf = 0.
Python raises `ZeroDivisionError` on finite/0; the source only ever
divides by the step size `dx`, whose default `1e-10` is nonzero, so the
zero-divisor row (mapped to NaN here) is unreachable on the source's
code paths and theorems that quantify over `dx` exclude it by
hypothesis. -/
def FVal.div : FVal → FVal → FVal
  | .nan, _ => .nan
  | _, .nan => .nan
  | .inf, .inf => .nan
  | .inf, .neginf => .nan
  | .inf, .fin b => if 0 < b then .inf else if b < 0 then .neginf else .nan
  | .neginf, .inf => .nan
  | .neginf, .neginf => .nan
  | .neginf, .fin b => if 0 < b then .neginf else if b < 0 then .inf else .nan
  | .fin _, .inf => .fin 0
  | .fin _, .neginf => .fin 0
  | .fin a, .fin b => if b = 0 then .nan else .fin (a / b)

/-- Model of Python's global random stream: an infinite sequence of
draws from `random.random()` (values in `[0,1)`), together with a cursor
marking how many draws have been consumed. -/
structure Rng where
  stream : ℕ → ℚ
  pos : ℕ

/-- Consume one draw from the stream. -/
def Rng.next (g : Rng) : ℚ × Rng :=
  (g.stream g.pos, ⟨g.stream, g.pos + 1⟩)

/-- CPython's `random.uniform(a, b)` is `a + (b - a) * random()`: it
consumes exactly one draw `u` from the stream. -/
def uniformDraw (a b : ℚ) (g : Rng) : ℚ × Rng :=
  let u := Rng.next g
  (a + (b - a) * u.1, u.2)

/-- An objective function: maps a candidate point (a Python list of
floats) to a float score.  The source's demonstration objective (the
semi-empirical mass formula) is just one instance; the optimizer is
generic in it. -/
abbrev Obj : Type := List FVal → FVal

/-- Embedding of the `TwoHanded` class instance attributes, exactly the
three assigned in `__init__`: `self.ranges`, `self.leftPoints`,
`self.rightPoints`.  Bounds are pairs `(low, high)`; the weights are
Python numbers, modelled as rationals. -/
structure TwoHanded where
  ranges : List (ℚ × ℚ)
  leftPoints : ℚ
  rightPoints : ℚ

/-- Embedding of `TwoHanded.__init__(ranges, leftPoints=1, rightPoints=1)`:
the constructor body only stores its three arguments.  It contains no
check of the bounds or the weights and no `raise`, so its embedding is a
total function that succeeds on every input. -/
def TwoHanded.init (ranges : List (ℚ × ℚ)) (leftPoints rightPoints : ℚ) : TwoHanded :=
  ⟨ranges, leftPoints, rightPoints⟩

/-- Embedding of `TwoHanded.selectLeftOrRight`:
`probLeft = leftPoints / (leftPoints + rightPoints)`; draw one uniform
value with `r.uniform(0, 1)` (which is one raw draw from the stream);
return `"L"` if the draw is below `probLeft`, else `"R"`. -/
def TwoHanded.selectLeftOrRight (th : TwoHanded) (g : Rng) : String × Rng :=
  let probLeft := th.leftPoints / (th.leftPoints + th.rightPoints)
  let u := Rng.next g
  if u.1 < probLeft then ("L", u.2) else ("R", u.2)

/-- Loop body of `generateRandomHypothesis`: for each range
`x = (low, high)` in order, append `r.uniform(x[0], x[1])` to the output
list.  Each coordinate drawn by `uniform` is a finite float. -/
def genRandLoop : List (ℚ × ℚ) → Rng → List FVal × Rng
  | [], g => ([], g)
  | (a, b) :: rest, g =>
    let v := uniformDraw a b g
    let tl := genRandLoop rest v.2
    (FVal.fin v.1 :: tl.1, tl.2)

/-- Embedding of `TwoHanded.generateRandomHypothesis`: one uniform draw
per dimension of `self.ranges`, in order. -/
def TwoHanded.generateRandomHypothesis (th : TwoHanded) (g : Rng) : List FVal × Rng :=
  genRandLoop th.ranges g

/-- Default finite-difference step size of `gradientStep`:
`dx = 10 ** (-10)`. -/
def dxDefault : ℚ := 1 / 10 ^ 10

/-- Default learning rate of `gradientStep`: `learnRate = 0.01`. -/
def learnRateDefault : ℚ := 1 / 100

/-- First loop of `gradientStep`, over the index list
`range(len(currentX))`.  Per index `i` the source does:
`cloneX = [x for x in currentX]` (a fresh element-wise copy, so its
value is `currentX`); `Y1 = objectiveFunction(cloneX)`;
`cloneX[i] += dx`; `Y2 = objectiveFunction(cloneX)`;
`gradientVector.append((Y2 - Y1)/dx)`.  Note `Y1` is recomputed inside
the loop on every index.  The natural-number argument counts
objective-function calls: each index adds two. -/
def gradLoop (f : Obj) (currentX : List FVal) (dx : FVal) : List ℕ → ℕ → List FVal × ℕ
  | [], calls => ([], calls)
  | i :: rest, calls =>
    let cloneX := currentX
    let Y1 := f cloneX
    let cloneX2 := cloneX.set i (FVal.add (cloneX.getD i (FVal.fin 0)) dx)
    let Y2 := f cloneX2
    let r := gradLoop f currentX dx rest (calls + 2)
    (FVal.div (FVal.sub Y2 Y1) dx :: r.1, r.2)

/-- Second loop of `gradientStep`, over `range(len(outputX))`:
`outputX[i] += gradientVector[i] * learnRate`, an in-place update of the
fresh copy `outputX = [x for x in currentX]`. -/
def updLoop (learnRate : FVal) (gradientVector : List FVal) : List ℕ → List FVal → List FVal
  | [], outputX => outputX
  | i :: rest, outputX =>
    updLoop learnRate gradientVector rest
      (outputX.set i (FVal.add (outputX.getD i (FVal.fin 0))
        (FVal.mul (gradientVector.getD i (FVal.fin 0)) learnRate)))

/-- Embedding of `TwoHanded.gradientStep(objectiveFunction, currentX,
dx=10**(-10), learnRate=0.01)`: build the forward-difference gradient
vector, then add `gradientVector[i] * learnRate` to each coordinate of a
fresh copy of `currentX`.  Returns the new point together with the
updated objective-call counter.  The method takes no bounds argument at
all, so the result is never clamped to `self.ranges`. -/
def TwoHanded.gradientStep (f : Obj) (currentX : List FVal) (dx learnRate : FVal)
    (calls : ℕ) : List FVal × ℕ :=
  let r := gradLoop f currentX dx (List.range currentX.length) calls
  let outputX := updLoop learnRate r.1 (List.range currentX.length) currentX
  (outputX, r.2)

/-- The state carried across iterations of `optimize`: the instance
`self` (whose `leftPoints`/`rightPoints` the loop mutates), the local
variables `currentX` (initially `None`) and `currentY` (initially
`-float("inf")`), the random stream, and the instrumentation counter of
objective-function calls. -/
structure LoopState where
  th : TwoHanded
  currentX : Option (List FVal)
  currentY : FVal
  g : Rng
  calls : ℕ

/-- The state at entry of `optimize`: `currentX = None`,
`currentY = -float("inf")`; `self`'s attributes are whatever they are at
call time (they are NOT reset by `optimize`). -/
def optimizeInit (th : TwoHanded) (g : Rng) : LoopState :=
  ⟨th, none, FVal.neginf, g, 0⟩

/-- The midpoint seeding of the exploitative branch: when
`currentX == None` the source sets
`currentX = [np.mean(x) for x in self.ranges]`, the per-dimension
midpoint `(low + high) / 2`; otherwise `currentX` is kept. -/
def seedOf (s : LoopState) : List FVal :=
  match s.currentX with
  | none => s.th.ranges.map (fun p => FVal.fin ((p.1 + p.2) / 2))
  | some x => x

/-- One iteration of the `for` loop in `TwoHanded.optimize`:
select a hand; on `"L"` draw a random hypothesis, evaluate it, and
either adopt it and reward the left counter (strict improvement) or
leave the best alone and reward the RIGHT counter; on the other hand
seed `currentX` if it is `None`, take one gradient step from it,
evaluate, and either adopt and reward the right counter or reward the
LEFT counter.  Record updates are written field-by-field against the
source's assignments. -/
def optimizeIter (f : Obj) (s : LoopState) : LoopState :=
  let dg := s.th.selectLeftOrRight s.g
  if dg.1 = "L" then
    let xg := s.th.generateRandomHypothesis dg.2
    let newY := f xg.1
    if fgt newY s.currentY then
      ⟨⟨s.th.ranges, s.th.leftPoints + 1, s.th.rightPoints⟩, some xg.1, newY, xg.2, s.calls + 1⟩
    else
      ⟨⟨s.th.ranges, s.th.leftPoints, s.th.rightPoints + 1⟩, s.currentX, s.currentY, xg.2,
        s.calls + 1⟩
  else
    let base := seedOf s
    let r := TwoHanded.gradientStep f base (FVal.fin dxDefault) (FVal.fin learnRateDefault) s.calls
    let newY := f r.1
    if fgt newY s.currentY then
      ⟨⟨s.th.ranges, s.th.leftPoints, s.th.rightPoints + 1⟩, some r.1, newY, dg.2, r.2 + 1⟩
    else
      ⟨⟨s.th.ranges, s.th.leftPoints + 1, s.th.rightPoints⟩, some base, s.currentY, dg.2, r.2 + 1⟩

/-- The `for i in range(numIterations)` loop of `optimize`: run
`optimizeIter` the given number of times. -/
def optimizeLoop (f : Obj) : ℕ → LoopState → LoopState
  | 0, s => s
  | n + 1, s => optimizeLoop f n (optimizeIter f s)

/-- Embedding of `TwoHanded.optimize(objectiveFunction, numIterations)`:
initialize the local state and run the loop.  The source returns
`currentX` and leaves the mutated `self` behind; here the whole final
`LoopState` is returned so both are visible (`.currentX` is the return
value, `.th` the instance after the call). -/
def TwoHanded.optimize (th : TwoHanded) (f : Obj) (numIterations : ℕ) (g : Rng) : LoopState :=
  optimizeLoop f numIterations (optimizeInit th g)

/-! ### Store-level model of `gradientStep` for the aliasing claim

The pure model above identifies a Python list with its value, which is
sound because every list assignment in `gradientStep` is a list
comprehension creating a fresh object.  To make that argument checkable,
the following model tracks the four list variables of the method body as
four distinct mutable cells: `cloneX = [x for x in currentX]` copies a
value into the `cloneX` cell, and the in-place updates `cloneX[i] += dx`
and `outputX[i] += ...` write only to their own cell.  The claim that
the caller's `currentX` is untouched is then the statement that the
`currentX` cell of the final store holds its initial value. -/

/-- The four local list variables of `gradientStep` as distinct store
cells. -/
structure GradEnv where
  currentX : List FVal
  cloneX : List FVal
  gradientVector : List FVal
  outputX : List FVal

/-- Store-level first loop of `gradientStep`: per index, copy
`currentX` into the `cloneX` cell, evaluate, bump coordinate `i` of
`cloneX` in place, evaluate again, append the difference quotient to
`gradientVector`. -/
def gradLoopEnv (f : Obj) (dx : FVal) : List ℕ → GradEnv → GradEnv
  | [], e => e
  | i :: rest, e =>
    let e1 : GradEnv := { e with cloneX := e.currentX }
    let e2 : GradEnv :=
      { e1 with cloneX := e1.cloneX.set i (FVal.add (e1.cloneX.getD i (FVal.fin 0)) dx) }
    let e3 : GradEnv :=
      { e2 with gradientVector :=
          e2.gradientVector ++ [FVal.div (FVal.sub (f e2.cloneX) (f e1.cloneX)) dx] }
    gradLoopEnv f dx rest e3

/-- Store-level second loop of `gradientStep`: in-place update of the
`outputX` cell, coordinate by coordinate. -/
def updLoopEnv (learnRate : FVal) : List ℕ → GradEnv → GradEnv
  | [], e => e
  | i :: rest, e =>
    updLoopEnv learnRate rest
      { e with outputX := e.outputX.set i (FVal.add (e.outputX.getD i (FVal.fin 0))
          (FVal.mul (e.gradientVector.getD i (FVal.fin 0)) learnRate)) }

/-- Store-level model of the whole `gradientStep` body: start from the
caller's list in the `currentX` cell, run the gradient loop, copy
`currentX` into the fresh `outputX` cell (`outputX = [x for x in
currentX]`), and run the update loop.  The final store is returned. -/
def gradientStepEnv (f : Obj) (x : List FVal) (dx learnRate : FVal) : GradEnv :=
  let e0 : GradEnv := ⟨x, [], [], []⟩
  let e1 := gradLoopEnv f dx (List.range x.length) e0
  let e2 : GradEnv := { e1 with outputX := e1.currentX }
  updLoopEnv learnRate (List.range x.length) e2

/-! ### Concrete instances used by counterexamples and witnesses -/

/-- A one-dimensional optimizer over the bounds `[(0, 2)]` with the
default initial weights `1, 1`. -/
def thA : TwoHanded := ⟨[(0, 2)], 1, 1⟩

/-- A random stream that always draws `0`. -/
def zeroRng : Rng := ⟨fun _ => 0, 0⟩

/-- A random stream that always draws `1/2`. -/
def halfRng : Rng := ⟨fun _ => 1 / 2, 0⟩

/-- The objective that is constantly the finite score `0`. -/
def constZero : Obj := fun _ => FVal.fin 0

/-- The objective that is constantly `+inf`. -/
def constInf : Obj := fun _ => FVal.inf

/-- The objective that is constantly `-inf`. -/
def constNegInf : Obj := fun _ => FVal.neginf

/-! ### Helper lemmas -/

/-- Reading back the coordinate just written by `List.set`. -/
theorem getD_set_self {α : Type} (l : List α) (i : ℕ) (a d : α) (h : i < l.length) :
    (l.set i a).getD i d = a := by
  simp [List.getD_eq_getElem?_getD, List.getElem?_set_self', h]

/-- Reading a coordinate other than the one written by `List.set`. -/
theorem getD_set_ne {α : Type} (l : List α) (i j : ℕ) (a d : α) (h : i ≠ j) :
    (l.set i a).getD j d = l.getD j d := by
  simp [List.getD_eq_getElem?_getD, List.getElem?_set_ne h]

/-- Reading an in-range coordinate of a map over `List.range`. -/
theorem getD_map_range {α : Type} (n i : ℕ) (h : ℕ → α) (d : α) (hi : i < n) :
    ((List.range n).map h).getD i d = h i := by
  simp [List.getD_eq_getElem?_getD, List.getElem?_map, List.getElem?_range hi]

/-- Closed form of the gradient loop: the gradient vector is the list of
forward difference quotients in index order, and the loop makes exactly
two objective calls per index. -/
theorem gradLoop_eq (f : Obj) (x : List FVal) (dx : FVal) (is : List ℕ) (c : ℕ) :
    gradLoop f x dx is c =
      (is.map fun i =>
        FVal.div (FVal.sub (f (x.set i (FVal.add (x.getD i (FVal.fin 0)) dx))) (f x)) dx,
       c + 2 * is.length) := by
  induction is generalizing c with
  | nil => simp [gradLoop]
  | cons i rest ih =>
    simp [gradLoop, ih]
    omega

/-- The update loop preserves the length of the point. -/
theorem updLoop_length (lr : FVal) (gv : List FVal) (is : List ℕ) (ox : List FVal) :
    (updLoop lr gv is ox).length = ox.length := by
  induction is generalizing ox with
  | nil => rfl
  | cons i rest ih =>
    rw [updLoop, ih]
    simp

/-- Pointwise description of the update loop over a duplicate-free,
in-range index list: each listed coordinate gains
`gradientVector[i] * learnRate`, the others are untouched. -/
theorem updLoop_getD (lr : FVal) (gv : List FVal) (is : List ℕ) (ox : List FVal)
    (hnd : is.Nodup) (hlt : ∀ i ∈ is, i < ox.length) (j : ℕ) :
    (updLoop lr gv is ox).getD j (FVal.fin 0) =
      if j ∈ is then
        FVal.add (ox.getD j (FVal.fin 0)) (FVal.mul (gv.getD j (FVal.fin 0)) lr)
      else ox.getD j (FVal.fin 0) := by
  induction is generalizing ox with
  | nil => simp [updLoop]
  | cons i rest ih =>
    have hi : i < ox.length := hlt i (List.mem_cons_self i rest)
    have hnotin : i ∉ rest := (List.nodup_cons.mp hnd).1
    have hnd' : rest.Nodup := (List.nodup_cons.mp hnd).2
    have hlt' : ∀ k ∈ rest,
        k < (ox.set i (FVal.add (ox.getD i (FVal.fin 0))
          (FVal.mul (gv.getD i (FVal.fin 0)) lr))).length := by
      intro k hk
      simpa using hlt k (List.mem_cons_of_mem i hk)
    rw [updLoop, ih _ hnd' hlt']
    by_cases hji : j = i
    · subst hji
      simp [hnotin, List.getElem?_set_eq_of_lt _ hi]
    · have hij : i ≠ j := fun hh => hji hh.symm
      by_cases hjr : j ∈ rest
      · simp [hjr, hji, List.getElem?_set_ne hij]
      · simp [hjr, hji, List.getElem?_set_ne hij]

/-- The gradient loop of the store-level model writes neither the
`currentX` cell nor the `outputX` cell. -/
theorem gradLoopEnv_frame (f : Obj) (dx : FVal) (is : List ℕ) (e : GradEnv) :
    (gradLoopEnv f dx is e).currentX = e.currentX ∧
    (gradLoopEnv f dx is e).outputX = e.outputX := by
  induction is generalizing e with
  | nil => exact ⟨rfl, rfl⟩
  | cons i rest ih => exact ih _

/-- The gradient loop of the store-level model appends to the
`gradientVector` cell exactly the forward difference quotients of the
pure model, computed against the (unchanged) `currentX` cell. -/
theorem gradLoopEnv_gradientVector (f : Obj) (x : List FVal) (dx : FVal) (is : List ℕ)
    (e : GradEnv) (hx : e.currentX = x) :
    (gradLoopEnv f dx is e).gradientVector =
      e.gradientVector ++ is.map (fun i =>
        FVal.div (FVal.sub (f (x.set i (FVal.add (x.getD i (FVal.fin 0)) dx))) (f x)) dx) := by
  induction is generalizing e with
  | nil => simp [gradLoopEnv]
  | cons i rest ih =>
    rw [gradLoopEnv, ih _ (by simpa using hx)]
    simp [hx]

/-- The update loop of the store-level model writes only the `outputX`
cell, and updates it exactly as the pure update loop does. -/
theorem updLoopEnv_fields (lr : FVal) (is : List ℕ) (e : GradEnv) :
    (updLoopEnv lr is e).currentX = e.currentX ∧
    (updLoopEnv lr is e).gradientVector = e.gradientVector ∧
    (updLoopEnv lr is e).outputX = updLoop lr e.gradientVector is e.outputX := by
  induction is generalizing e with
  | nil => exact ⟨rfl, rfl, rfl⟩
  | cons i rest ih =>
    rw [updLoopEnv, updLoop]
    exact ih _

/-- C10: `gradientStep` does not mutate its input point.  In the
store-level model of the method body, the caller's list (the `currentX`
cell) still holds exactly its initial coordinates when the method
returns, because every perturbation is applied to the per-dimension
fresh copy `cloneX` and the returned point is built in the fresh list
`outputX`; moreover that returned `outputX` is exactly the point the
pure model computes. -/
theorem gradientStep_frame (f : Obj) (x : List FVal) (dx lr : FVal) :
    (gradientStepEnv f x dx lr).currentX = x ∧
    (gradientStepEnv f x dx lr).outputX = (TwoHanded.gradientStep f x dx lr 0).1 := by
  have h1 := gradLoopEnv_frame f dx (List.range x.length) ⟨x, [], [], []⟩
  have h2 := updLoopEnv_fields lr (List.range x.length)
    { gradLoopEnv f dx (List.range x.length) ⟨x, [], [], []⟩ with
      outputX := (gradLoopEnv f dx (List.range x.length) ⟨x, [], [], []⟩).currentX }
  have hgv := gradLoopEnv_gradientVector f x dx (List.range x.length) ⟨x, [], [], []⟩ rfl
  constructor
  · rw [show gradientStepEnv f x dx lr =
      updLoopEnv lr (List.range x.length)
        { gradLoopEnv f dx (List.range x.length) ⟨x, [], [], []⟩ with
          outputX := (gradLoopEnv f dx (List.range x.length) ⟨x, [], [], []⟩).currentX }
      from rfl]
    rw [h2.1]
    exact h1.1
  · rw [show gradientStepEnv f x dx lr =
      updLoopEnv lr (List.range x.length)
        { gradLoopEnv f dx (List.range x.length) ⟨x, [], [], []⟩ with
          outputX := (gradLoopEnv f dx (List.range x.length) ⟨x, [], [], []⟩).currentX }
      from rfl]
    rw [h2.2.2]
    have houtx : (TwoHanded.gradientStep f x dx lr 0).1 =
        updLoop lr (gradLoop f x dx (List.range x.length) 0).1 (List.range x.length) x := rfl
    rw [houtx, gradLoop_eq]
    rw [hgv, h1.1]
    simp

/-- C4: for every objective `f`, point `x`, nonzero step size `dx` and
learning rate, the point returned by `gradientStep` has the same
dimensionality as `x` and satisfies, coordinate by coordinate,
`out[i] = x[i] + ((f(x with coordinate i perturbed by +dx) - f(x)) / dx) * learnRate`
(forward differences; the clone evaluated for `Y1` equals `x` itself).
The method receives no bounds, so no clamping to the search space is
applied; the defaults are `dx = 1e-10` and `learnRate = 0.01`. -/
theorem gradientStep_formula (f : Obj) (x : List FVal) (dx lr : FVal) (c : ℕ)
    (hdx : decide (dx = FVal.fin 0) = false) :
    dxDefault = 1 / 10 ^ 10 ∧ learnRateDefault = 1 / 100 ∧
    ((TwoHanded.gradientStep f x dx lr c).1).length = x.length ∧
    ∀ i, i < x.length →
      ((TwoHanded.gradientStep f x dx lr c).1).getD i (FVal.fin 0) =
        FVal.add (x.getD i (FVal.fin 0))
          (FVal.mul (FVal.div (FVal.sub (f (x.set i (FVal.add (x.getD i (FVal.fin 0)) dx)))
            (f x)) dx) lr) := by
  refine ⟨rfl, rfl, updLoop_length _ _ _ _, ?_⟩
  intro i hi
  have h1 : (TwoHanded.gradientStep f x dx lr c).1 =
      updLoop lr (gradLoop f x dx (List.range x.length) c).1 (List.range x.length) x := rfl
  rw [h1, gradLoop_eq]
  rw [updLoop_getD _ _ _ _ (List.nodup_range _) (fun k hk => List.mem_range.mp hk) i]
  rw [if_pos (List.mem_range.mpr hi)]
  rw [getD_map_range _ _ _ _ hi]

/-- Witness for C4 at a concrete instance: one dimension, zero
objective, unit step size and learning rate. -/
theorem gradientStep_formula_witness :
    decide ((FVal.fin 1 : FVal) = FVal.fin 0) = false ∧ 0 < [FVal.fin 0].length ∧
    ((TwoHanded.gradientStep constZero [FVal.fin 0] (FVal.fin 1) (FVal.fin 1) 0).1).getD 0
        (FVal.fin 0) =
      FVal.add ([FVal.fin 0].getD 0 (FVal.fin 0))
        (FVal.mul (FVal.div (FVal.sub (constZero ([FVal.fin 0].set 0
            (FVal.add ([FVal.fin 0].getD 0 (FVal.fin 0)) (FVal.fin 1))))
          (constZero [FVal.fin 0])) (FVal.fin 1)) (FVal.fin 1)) := by
  refine ⟨?_, by norm_num, ?_⟩
  · rw [decide_eq_false_iff_not]
    intro h
    exact one_ne_zero (FVal.fin.inj h)
  · exact (gradientStep_formula constZero [FVal.fin 0] (FVal.fin 1) (FVal.fin 1) 0
      (by rw [decide_eq_false_iff_not]; intro h; exact one_ne_zero (FVal.fin.inj h))).2.2.2 0
      (by norm_num)

/-- C5 amended: one call to `gradientStep` on a `d`-dimensional point
invokes the objective function exactly `2 * d` times, because the
unperturbed evaluation `Y1 = objectiveFunction(cloneX)` sits inside the
per-dimension loop and is therefore repeated for every dimension rather
than shared. -/
theorem gradientStep_call_count (f : Obj) (x : List FVal) (dx lr : FVal) (c : ℕ) :
    (TwoHanded.gradientStep f x dx lr c).2 = c + 2 * x.length := by
  have h : (TwoHanded.gradientStep f x dx lr c).2 =
      (gradLoop f x dx (List.range x.length) c).2 := rfl
  rw [h, gradLoop_eq]
  simp

/-- Counterexample to C5 as stated: on a 2-dimensional point the
objective is invoked 4 times by one gradient step, not `d + 1 = 3`
times. -/
theorem gradientStep_call_count_cex :
    (TwoHanded.gradientStep constZero [FVal.fin 0, FVal.fin 0] (FVal.fin 1) (FVal.fin 1) 0).2
        = 4 ∧
    [FVal.fin 0, FVal.fin 0].length + 1 = 3 ∧
    decide ((TwoHanded.gradientStep constZero [FVal.fin 0, FVal.fin 0] (FVal.fin 1) (FVal.fin 1)
        0).2 = [FVal.fin 0, FVal.fin 0].length + 1) = false := by
  refine ⟨?_, rfl, ?_⟩
  · rw [show (TwoHanded.gradientStep constZero [FVal.fin 0, FVal.fin 0] (FVal.fin 1)
        (FVal.fin 1) 0).2 = (gradLoop constZero [FVal.fin 0, FVal.fin 0] (FVal.fin 1)
        (List.range 2) 0).2 from rfl, gradLoop_eq]
    rfl
  · rw [decide_eq_false_iff_not,
      show (TwoHanded.gradientStep constZero [FVal.fin 0, FVal.fin 0] (FVal.fin 1)
        (FVal.fin 1) 0).2 = (gradLoop constZero [FVal.fin 0, FVal.fin 0] (FVal.fin 1)
        (List.range 2) 0).2 from rfl, gradLoop_eq]
    norm_num

/-- A value strictly above another (in the float order) is not NaN. -/
theorem fgt_notNan_left (a b : FVal) (h : fgt a b = true) : a.isNan = false := by
  cases a <;> cases b <;> simp_all [fgt, FVal.isNan]

/-- Strict float greater-than implies float greater-or-equal. -/
theorem fgt_imp_fge (a b : FVal) (h : fgt a b = true) : fge a b = true := by
  cases a <;> cases b <;> simp_all [fgt, fge]
  exact le_of_lt (by assumption)

/-- Float greater-or-equal is reflexive away from NaN. -/
theorem fge_self (a : FVal) (h : a.isNan = false) : fge a a = true := by
  cases a <;> simp_all [fge, FVal.isNan]

/-- One iteration never changes the stored search space. -/
theorem optimizeIter_th_ranges (f : Obj) (s : LoopState) :
    (optimizeIter f s).th.ranges = s.th.ranges := by
  by_cases h1 : (s.th.selectLeftOrRight s.g).1 = "L"
  · by_cases h2 : fgt (f (s.th.generateRandomHypothesis (s.th.selectLeftOrRight s.g).2).1)
        s.currentY = true
    · simp [optimizeIter, h1, h2]
    · simp [optimizeIter, h1, h2]
  · by_cases h2 : fgt (f (TwoHanded.gradientStep f (seedOf s) (FVal.fin dxDefault)
        (FVal.fin learnRateDefault) s.calls).1) s.currentY = true
    · simp [optimizeIter, h1, h2]
    · simp [optimizeIter, h1, h2]

/-- One iteration increments exactly one of the two counters by exactly
one and leaves the other unchanged; no counter is ever decremented. -/
theorem optimizeIter_weights (f : Obj) (s : LoopState) :
    ((optimizeIter f s).th.leftPoints = s.th.leftPoints + 1 ∧
      (optimizeIter f s).th.rightPoints = s.th.rightPoints) ∨
    ((optimizeIter f s).th.rightPoints = s.th.rightPoints + 1 ∧
      (optimizeIter f s).th.leftPoints = s.th.leftPoints) := by
  by_cases h1 : (s.th.selectLeftOrRight s.g).1 = "L"
  · by_cases h2 : fgt (f (s.th.generateRandomHypothesis (s.th.selectLeftOrRight s.g).2).1)
        s.currentY = true
    · left
      simp [optimizeIter, h1, h2]
    · right
      simp [optimizeIter, h1, h2]
  · by_cases h2 : fgt (f (TwoHanded.gradientStep f (seedOf s) (FVal.fin dxDefault)
        (FVal.fin learnRateDefault) s.calls).1) s.currentY = true
    · right
      simp [optimizeIter, h1, h2]
    · left
      simp [optimizeIter, h1, h2]

/-- Across one iteration the best score never drops (in the float order)
and never becomes NaN: it is replaced only by a score strictly above it,
and a NaN candidate score always fails the strict comparison. -/
theorem optimizeIter_score (f : Obj) (s : LoopState) (h : s.currentY.isNan = false) :
    fge (optimizeIter f s).currentY s.currentY = true ∧
    ((optimizeIter f s).currentY).isNan = false := by
  by_cases h1 : (s.th.selectLeftOrRight s.g).1 = "L"
  · by_cases h2 : fgt (f (s.th.generateRandomHypothesis (s.th.selectLeftOrRight s.g).2).1)
        s.currentY = true
    · simp only [optimizeIter, h1, if_true, h2, if_pos]
      exact ⟨fgt_imp_fge _ _ h2, fgt_notNan_left _ _ h2⟩
    · simp [optimizeIter, h1, h2]
      exact ⟨fge_self _ h, h⟩
  · by_cases h2 : fgt (f (TwoHanded.gradientStep f (seedOf s) (FVal.fin dxDefault)
        (FVal.fin learnRateDefault) s.calls).1) s.currentY = true
    · simp [optimizeIter, h1, h2]
      exact ⟨fgt_imp_fge _ _ h2, fgt_notNan_left _ _ h2⟩
    · simp [optimizeIter, h1, h2]
      exact ⟨fge_self _ h, h⟩

/-- Unrolling the iteration loop from the far end. -/
theorem optimizeLoop_succ (f : Obj) (n : ℕ) (s : LoopState) :
    optimizeLoop f (n + 1) s = optimizeIter f (optimizeLoop f n s) := by
  induction n generalizing s with
  | zero => rfl
  | succ n ih =>
    rw [show optimizeLoop f (n + 1 + 1) s = optimizeLoop f (n + 1) (optimizeIter f s) from rfl,
      ih]
    rfl

/-- The best score held by the loop state is never NaN. -/
theorem optimizeLoop_notNan (f : Obj) (n : ℕ) (s : LoopState) (h : s.currentY.isNan = false) :
    ((optimizeLoop f n s).currentY).isNan = false := by
  induction n generalizing s with
  | zero => exact h
  | succ n ih => exact ih _ ((optimizeIter_score f s h).2)

/-- Total weight bookkeeping of the loop: each iteration adds exactly
one point. -/
theorem optimizeLoop_sum (f : Obj) (n : ℕ) (s : LoopState) :
    (optimizeLoop f n s).th.leftPoints + (optimizeLoop f n s).th.rightPoints =
      s.th.leftPoints + s.th.rightPoints + (n : ℚ) := by
  induction n generalizing s with
  | zero => simp [optimizeLoop]
  | succ n ih =>
    rw [show optimizeLoop f (n + 1) s = optimizeLoop f n (optimizeIter f s) from rfl, ih]
    rcases optimizeIter_weights f s with ⟨ha, hb⟩ | ⟨ha, hb⟩ <;> rw [ha, hb] <;> push_cast <;>
      ring

/-- The loop never touches the stored search space. -/
theorem optimizeLoop_ranges (f : Obj) (n : ℕ) (s : LoopState) :
    (optimizeLoop f n s).th.ranges = s.th.ranges := by
  induction n generalizing s with
  | zero => rfl
  | succ n ih =>
    rw [show optimizeLoop f (n + 1) s = optimizeLoop f n (optimizeIter f s) from rfl, ih,
      optimizeIter_th_ranges]

/-- C2: with both weights positive, `selectLeftOrRight` consumes exactly
one uniform draw `u` and returns the exploratory hand `"L"` precisely
when `u < leftPoints / (leftPoints + rightPoints)`, and the exploitative
hand `"R"` otherwise. -/
theorem selectLeftOrRight_spec (th : TwoHanded) (g : Rng)
    (hl : 0 < th.leftPoints) (hr : 0 < th.rightPoints) :
    (th.selectLeftOrRight g).1 =
      (if g.stream g.pos < th.leftPoints / (th.leftPoints + th.rightPoints) then "L"
        else "R") ∧
    (th.selectLeftOrRight g).2.stream = g.stream ∧
    (th.selectLeftOrRight g).2.pos = g.pos + 1 := by
  refine ⟨?_, ?_, ?_⟩ <;>
    · by_cases h : g.stream g.pos < th.leftPoints / (th.leftPoints + th.rightPoints) <;>
        simp [TwoHanded.selectLeftOrRight, Rng.next, h]

/-- Witness for C2 at the concrete instance `thA` (weights 1 and 1) with
the all-zero draw stream. -/
theorem selectLeftOrRight_spec_witness :
    (0 : ℚ) < thA.leftPoints ∧ (0 : ℚ) < thA.rightPoints ∧
    ((thA.selectLeftOrRight zeroRng).1 =
      (if zeroRng.stream zeroRng.pos < thA.leftPoints / (thA.leftPoints + thA.rightPoints)
        then "L" else "R") ∧
    (thA.selectLeftOrRight zeroRng).2.stream = zeroRng.stream ∧
    (thA.selectLeftOrRight zeroRng).2.pos = zeroRng.pos + 1) :=
  ⟨by norm_num [thA], by norm_num [thA],
    selectLeftOrRight_spec thA zeroRng (by norm_num [thA]) (by norm_num [thA])⟩

/-- C3: after `n` iterations of `optimize` the total weight equals the
initial total plus `n`: every iteration increments exactly one of the
two counters by exactly 1 (second conjunct), and neither counter is ever
decremented. -/
theorem optimize_weight_sum (th : TwoHanded) (f : Obj) (n : ℕ) (g : Rng) :
    (th.optimize f n g).th.leftPoints + (th.optimize f n g).th.rightPoints
        = th.leftPoints + th.rightPoints + (n : ℚ) ∧
    ∀ (fi : Obj) (s : LoopState),
      ((optimizeIter fi s).th.leftPoints = s.th.leftPoints + 1 ∧
        (optimizeIter fi s).th.rightPoints = s.th.rightPoints) ∨
      ((optimizeIter fi s).th.rightPoints = s.th.rightPoints + 1 ∧
        (optimizeIter fi s).th.leftPoints = s.th.leftPoints) :=
  ⟨optimizeLoop_sum f n (optimizeInit th g), fun fi s => optimizeIter_weights fi s⟩

/-- C8: within one run the best score never decreases from one iteration
to the next: the state after `k + 1` iterations extends the state after
`k` iterations of the same run, and its best score is
greater-or-equal. -/
theorem optimize_bestScore_monotone (th : TwoHanded) (f : Obj) (g : Rng) (k : ℕ) :
    fge ((th.optimize f (k + 1) g).currentY) ((th.optimize f k g).currentY) = true := by
  have h := optimizeLoop_notNan f k (optimizeInit th g) rfl
  rw [TwoHanded.optimize, TwoHanded.optimize, optimizeLoop_succ]
  exact (optimizeIter_score f _ h).1

/-- C6 amended: the best score is never NaN (a NaN candidate always
fails the strict comparison `newY > currentY`, and the initial best is
`-inf`), and `-inf` is likewise never adopted as an improvement; but the
comparison is not otherwise non-finite-safe: a candidate scoring `+inf`
IS adopted, together with its hypothesis, whenever the current best is
below it. -/
theorem optimize_bestScore_never_nan (th : TwoHanded) (f : Obj) (n : ℕ) (g : Rng) :
    ((th.optimize f n g).currentY).isNan = false :=
  optimizeLoop_notNan f n (optimizeInit th g) rfl

/-- Counterexample to C6 as stated: with the objective constantly
`+inf`, one iteration adopts the candidate and sets the best score to
the non-finite value `+inf`. -/
theorem optimize_adopts_inf_cex :
    (thA.optimize constInf 1 zeroRng).currentY = FVal.inf ∧
    FVal.isFinite FVal.inf = false ∧
    (thA.optimize constInf 1 zeroRng).currentX = some [FVal.fin 0] := by
  refine ⟨?_, rfl, ?_⟩ <;>
    norm_num [TwoHanded.optimize, optimizeLoop, optimizeIter, optimizeInit,
      TwoHanded.selectLeftOrRight, TwoHanded.generateRandomHypothesis, genRandLoop,
      uniformDraw, Rng.next, thA, zeroRng, constInf, fgt, seedOf]

/-- C7 amended: construction performs no validation at all: even on an
empty bounds sequence or bounds with `low > high` it succeeds and simply
stores its arguments (there is no `InvalidSearchSpace` error anywhere in
the code). -/
theorem init_accepts_invalid_bounds (ranges : List (ℚ × ℚ)) (l r : ℚ)
    (h : ranges = [] ∨ ∃ p ∈ ranges, p.2 < p.1) :
    TwoHanded.init ranges l r = ⟨ranges, l, r⟩ := rfl

/-- Witness for the amended C7 at the empty bounds sequence. -/
theorem init_accepts_invalid_bounds_witness :
    (([] : List (ℚ × ℚ)) = [] ∨ ∃ p ∈ ([] : List (ℚ × ℚ)), p.2 < p.1) ∧
    TwoHanded.init [] 1 1 = ⟨[], 1, 1⟩ :=
  ⟨Or.inl rfl, init_accepts_invalid_bounds [] 1 1 (Or.inl rfl)⟩

/-- Counterexample to C7 as stated: construction silently succeeds both
on the empty bounds sequence and on a dimension with `low > high`, and
the resulting optimizer even runs (a zero-iteration call returns
`None`). -/
theorem init_no_validation_cex :
    (TwoHanded.init [] 1 1).ranges = [] ∧ (TwoHanded.init [] 1 1).leftPoints = 1 ∧
    (TwoHanded.init [((2 : ℚ), (1 : ℚ))] 1 1).ranges = [(2, 1)] ∧
    ((TwoHanded.init [] 1 1).optimize constZero 0 zeroRng).currentX = none :=
  ⟨rfl, rfl, rfl, rfl⟩

/-- C9 amended: the per-call locals are created afresh at the start of
every `optimize` call (`currentX = None`, `currentY = -inf`) and the
stored search space never changes, but the `leftPoints`/`rightPoints`
counters live on the instance and are NOT reset: a second call starts
from exactly the weights the first call accumulated. -/
theorem optimize_weights_persist (th : TwoHanded) (f : Obj) (n : ℕ) (g g2 : Rng) :
    (optimizeInit ((th.optimize f n g).th) g2).currentX = none ∧
    (optimizeInit ((th.optimize f n g).th) g2).currentY = FVal.neginf ∧
    (optimizeInit ((th.optimize f n g).th) g2).th.leftPoints
        = (th.optimize f n g).th.leftPoints ∧
    (optimizeInit ((th.optimize f n g).th) g2).th.rightPoints
        = (th.optimize f n g).th.rightPoints ∧
    (th.optimize f n g).th.ranges = th.ranges :=
  ⟨rfl, rfl, rfl, rfl, optimizeLoop_ranges f n (optimizeInit th g)⟩

/-- Counterexample to C9 as stated: after one improving iteration the
instance's left weight is 2, so a second `optimize` call on the same
instance does NOT begin with the construction-supplied weight 1. -/
theorem optimize_weights_not_reset_cex :
    (optimizeInit ((thA.optimize constZero 1 zeroRng).th) zeroRng).th.leftPoints = 2 ∧
    thA.leftPoints = 1 ∧
    decide ((optimizeInit ((thA.optimize constZero 1 zeroRng).th) zeroRng).th.leftPoints
        = thA.leftPoints) = false := by
  have h : (optimizeInit ((thA.optimize constZero 1 zeroRng).th) zeroRng).th.leftPoints = 2 := by
    norm_num [TwoHanded.optimize, optimizeLoop, optimizeIter, optimizeInit,
      TwoHanded.selectLeftOrRight, TwoHanded.generateRandomHypothesis, genRandLoop,
      uniformDraw, Rng.next, thA, zeroRng, constZero, fgt, seedOf]
  refine ⟨h, rfl, ?_⟩
  rw [decide_eq_false_iff_not, h]
  norm_num [thA]

/-- C1 amended: per iteration, a candidate scoring strictly above the
current best is adopted and the chosen hand's counter gains 1; a
candidate scoring not-above (ties and NaN included) leaves the best
score unchanged and credits the OTHER hand's counter (cross-credit, in
both branches).  On failure the best hypothesis is unchanged in the
exploratory branch; in the exploitative branch it ends at `seedOf s`,
i.e. unchanged unless it was `None`, in which case it has been replaced
by the bounds midpoints (the seeding happens before the candidate is
tested, so even a failing exploitative iteration un-Nones the best
hypothesis). -/
theorem optimizeIter_cross_credit (f : Obj) (s : LoopState) :
    ((s.th.selectLeftOrRight s.g).1 = "L" →
      (fgt (f (s.th.generateRandomHypothesis (s.th.selectLeftOrRight s.g).2).1) s.currentY
          = true →
        (optimizeIter f s).currentX
            = some (s.th.generateRandomHypothesis (s.th.selectLeftOrRight s.g).2).1 ∧
        (optimizeIter f s).currentY
            = f (s.th.generateRandomHypothesis (s.th.selectLeftOrRight s.g).2).1 ∧
        (optimizeIter f s).th.leftPoints = s.th.leftPoints + 1 ∧
        (optimizeIter f s).th.rightPoints = s.th.rightPoints) ∧
      (fgt (f (s.th.generateRandomHypothesis (s.th.selectLeftOrRight s.g).2).1) s.currentY
          = false →
        (optimizeIter f s).currentX = s.currentX ∧
        (optimizeIter f s).currentY = s.currentY ∧
        (optimizeIter f s).th.rightPoints = s.th.rightPoints + 1 ∧
        (optimizeIter f s).th.leftPoints = s.th.leftPoints)) ∧
    ((s.th.selectLeftOrRight s.g).1 = "R" →
      (fgt (f (TwoHanded.gradientStep f (seedOf s) (FVal.fin dxDefault)
            (FVal.fin learnRateDefault) s.calls).1) s.currentY = true →
        (optimizeIter f s).currentX
            = some (TwoHanded.gradientStep f (seedOf s) (FVal.fin dxDefault)
                (FVal.fin learnRateDefault) s.calls).1 ∧
        (optimizeIter f s).currentY
            = f (TwoHanded.gradientStep f (seedOf s) (FVal.fin dxDefault)
                (FVal.fin learnRateDefault) s.calls).1 ∧
        (optimizeIter f s).th.rightPoints = s.th.rightPoints + 1 ∧
        (optimizeIter f s).th.leftPoints = s.th.leftPoints) ∧
      (fgt (f (TwoHanded.gradientStep f (seedOf s) (FVal.fin dxDefault)
            (FVal.fin learnRateDefault) s.calls).1) s.currentY = false →
        (optimizeIter f s).currentX = some (seedOf s) ∧
        (optimizeIter f s).currentY = s.currentY ∧
        (optimizeIter f s).th.leftPoints = s.th.leftPoints + 1 ∧
        (optimizeIter f s).th.rightPoints = s.th.rightPoints)) := by
  constructor
  · intro h1
    constructor
    · intro h2
      simp [optimizeIter, h1, h2]
    · intro h2
      simp [optimizeIter, h1, h2]
  · intro h1
    have h1' : ¬ (s.th.selectLeftOrRight s.g).1 = "L" := by
      rw [h1]
      decide
    constructor
    · intro h2
      simp [optimizeIter, h1', h2]
    · intro h2
      simp [optimizeIter, h1', h2]

/-- Witness for the amended C1: on the fresh state over `thA` with the
all-zero stream and the constant-zero objective, the exploratory hand is
chosen, the candidate improves on `-inf`, it is adopted, and the left
counter gains 1. -/
theorem optimizeIter_cross_credit_witness :
    (optimizeIter constZero (optimizeInit thA zeroRng)).currentX
        = some ((optimizeInit thA zeroRng).th.generateRandomHypothesis
            ((optimizeInit thA zeroRng).th.selectLeftOrRight (optimizeInit thA zeroRng).g).2).1 ∧
    (optimizeIter constZero (optimizeInit thA zeroRng)).currentY
        = constZero ((optimizeInit thA zeroRng).th.generateRandomHypothesis
            ((optimizeInit thA zeroRng).th.selectLeftOrRight (optimizeInit thA zeroRng).g).2).1 ∧
    (optimizeIter constZero (optimizeInit thA zeroRng)).th.leftPoints
        = (optimizeInit thA zeroRng).th.leftPoints + 1 ∧
    (optimizeIter constZero (optimizeInit thA zeroRng)).th.rightPoints
        = (optimizeInit thA zeroRng).th.rightPoints :=
  ((optimizeIter_cross_credit constZero (optimizeInit thA zeroRng)).1
    (by norm_num [optimizeInit, TwoHanded.selectLeftOrRight, Rng.next, thA, zeroRng])).1
    (by norm_num [optimizeInit, constZero, fgt])

/-- Counterexample to C1 as stated: from a fresh state (best hypothesis
`None`) over `thA` with the constant-`1/2` stream, the exploitative hand
is chosen, the candidate does NOT score strictly above the current best,
and yet the best hypothesis changes from `None` to the midpoint point
`[1]` (the claim says the best is unchanged in this case). -/
theorem optimizeIter_best_changed_cex :
    ((optimizeInit thA halfRng).th.selectLeftOrRight (optimizeInit thA halfRng).g).1 = "R" ∧
    fgt (constNegInf (TwoHanded.gradientStep constNegInf (seedOf (optimizeInit thA halfRng))
        (FVal.fin dxDefault) (FVal.fin learnRateDefault) (optimizeInit thA halfRng).calls).1)
      (optimizeInit thA halfRng).currentY = false ∧
    (optimizeInit thA halfRng).currentX = none ∧
    (optimizeIter constNegInf (optimizeInit thA halfRng)).currentY
        = (optimizeInit thA halfRng).currentY ∧
    (optimizeIter constNegInf (optimizeInit thA halfRng)).currentX = some [FVal.fin 1] ∧
    decide ((some [FVal.fin 1] : Option (List FVal)) = (optimizeInit thA halfRng).currentX)
        = false := by
  refine ⟨?_, ?_, rfl, ?_, ?_, rfl⟩
  · norm_num [optimizeInit, TwoHanded.selectLeftOrRight, Rng.next, thA, halfRng]
  · norm_num [constNegInf, fgt, optimizeInit]
  · norm_num [optimizeIter, optimizeInit, TwoHanded.selectLeftOrRight,
      TwoHanded.generateRandomHypothesis, genRandLoop, uniformDraw, Rng.next, thA, halfRng,
      constNegInf, fgt, seedOf, TwoHanded.gradientStep, gradLoop, updLoop, FVal.add, FVal.sub,
      FVal.mul, FVal.div, dxDefault, learnRateDefault,
      (show (("R" : String) = "L") ↔ False by decide)]
  · norm_num [optimizeIter, optimizeInit, TwoHanded.selectLeftOrRight,
      TwoHanded.generateRandomHypothesis, genRandLoop, uniformDraw, Rng.next, thA, halfRng,
      constNegInf, fgt, seedOf, TwoHanded.gradientStep, gradLoop, updLoop, FVal.add, FVal.sub,
      FVal.mul, FVal.div, dxDefault, learnRateDefault,
      (show (("R" : String) = "L") ↔ False by decide)]
